import Mathlib

/-!
Verification development for the pypmc sampling library.

The file embeds, in Lean, the parts of the library that the checked
properties talk about:

* `pypmc/mcprerun/markov_chain.py` — the `MarkovChain` sampler
  (indicator merging, Metropolis and Metropolis-Hastings acceptance,
  the `run` loop with its NaN check and history append) and the
  `AdaptiveMarkovChain` controller (`set_adapt_params`, `adapt`,
  `_update_scale_factor`).
* the PMC mixture update `gaussian_pmc` and the deterministic
  importance sampler, whose implementations are not shipped in this
  source tree (only their unit tests are); those two are modelled from
  the written specification, as flagged in their doc comments.

Scalars are embedded as exact rationals wherever the Python code only
adds, multiplies, divides and compares floats; the one genuinely real
operation (the fractional power `adapt_count ** damping`) is embedded
over the real numbers.  A Python float NaN is modelled by `Option`:
`none` is NaN, `some q` a finite value.  Python exceptions are
modelled by `Except PyErr`.
-/

namespace Pypmc

/-- A sampled point: a vector of float coordinates (1d numpy array). -/
abbrev Point := List ℚ

/-- Equality of embedded call results is decidable, so concrete runs
can be checked by evaluation. -/
instance {ε α : Type} [DecidableEq ε] [DecidableEq α] :
    DecidableEq (Except ε α) := fun a b =>
  match a, b with
  | .error x, .error y => decidable_of_iff (x = y) (by simp)
  | .error _, .ok _ => isFalse (by simp)
  | .ok _, .error _ => isFalse (by simp)
  | .ok x, .ok y => decidable_of_iff (x = y) (by simp)

/-- The Python exceptions raised by the embedded code. -/
inductive PyErr where
  /-- Python `TypeError` (wrong call arity, positional args refused). -/
  | typeError (msg : String)
  /-- Python `ValueError`. -/
  | valueError (msg : String)
  /-- Python `AssertionError`. -/
  | assertionError (msg : String)
deriving DecidableEq, Repr

/-! ### MarkovChain (`markov_chain.py`, lines 56-128)

A target log-density is a function `Point → Option ℚ`: the Python
target returns a float which may be NaN (`none`).  An indicator is a
`Point → Bool`; the constructor argument `indicator = None` is the
`none` case of the `Option`. -/

/-- Embeds `MarkovChain._merge_target_with_indicator` (lines 63-73):
with an indicator, the wrapped target returns the float `0.` — note:
the literal `0.`, not minus infinity — whenever the indicator fails,
and only calls the true target when the indicator holds. -/
def merge_target_with_indicator (target : Point → Option ℚ)
    (indicator : Option (Point → Bool)) : Point → Option ℚ :=
  match indicator with
  | none => target
  | some ind => fun x => if ind x then target x else some 0

/-- Embeds `MarkovChain._get_log_rho_metropolis` (lines 120-122):
`target(proposed) - target(current)`, NaN-propagating. -/
def get_log_rho_metropolis (target : Point → Option ℚ)
    (current proposed : Point) : Option ℚ := do
  let tProp ← target proposed
  let tCur ← target current
  pure (tProp - tCur)

/-- Python call semantics for `self._get_log_rho_metropolis(...)`: the
method accepts exactly one positional argument besides `self`; a call
with any other number of arguments raises `TypeError` before the body
runs. -/
def get_log_rho_metropolis_call (target : Point → Option ℚ)
    (current : Point) (args : List Point) : Except PyErr (Option ℚ) :=
  match args with
  | [proposed] => .ok (get_log_rho_metropolis target current proposed)
  | _ => .error (.typeError "get_log_rho_metropolis takes 2 positional arguments")

/-- Embeds `MarkovChain._get_log_rho_metropolis_hasting` (lines
124-128) exactly as written: it invokes
`self._get_log_rho_metropolis(proposed_point, self.points[-1])` —
two positional arguments — and then adds the Hastings terms
`- evaluate(proposed, points[-1]) + evaluate(points[-1], proposed)`.
`evaluate` is the proposal density's log-evaluation, an external
collaborator. -/
def get_log_rho_metropolis_hasting (target : Point → Option ℚ)
    (evaluate : Point → Point → ℚ) (current lastPoint proposed : Point) :
    Except PyErr (Option ℚ) :=
  match get_log_rho_metropolis_call target current [proposed, lastPoint] with
  | .error e => .error e
  | .ok r =>
      .ok (r.map (fun v => v - evaluate proposed lastPoint + evaluate lastPoint proposed))

/-- The intended Metropolis-Hastings log-ratio described by the
comment and docstring of `_get_log_rho_metropolis_hasting`: the plain
Metropolis ratio plus the Hastings correction
`evaluate(current, proposed) - evaluate(proposed, current)`. -/
def log_rho_metropolis_hasting_spec (target : Point → Option ℚ)
    (evaluate : Point → Point → ℚ) (current proposed : Point) : Option ℚ :=
  (get_log_rho_metropolis target current proposed).map
    (fun v => v - evaluate proposed current + evaluate current proposed)

/-- One iteration of the `run` loop (lines 87-114) for a symmetric
proposal.  The iteration input is the proposed point together with
`log(rng.rand())`, the log of the uniform draw that the `elif` branch
would consume.  Returns the new current point and whether the move was
accepted; raises `ValueError` on a NaN log-ratio (line 95). -/
def mcIter (target : Point → Option ℚ) (cur : Point) (inp : Point × ℚ) :
    Except PyErr (Point × Bool) :=
  match get_log_rho_metropolis target cur inp.1 with
  | none => .error (.valueError "encountered NaN")
  | some logRho =>
      if 0 ≤ logRho then .ok (inp.1, true)
      else if inp.2 ≤ logRho then .ok (inp.1, true)
      else .ok (cur, false)

/-- The `run` loop body over a list of iteration inputs: returns the
stored trajectory rows (`this_run`), the accept count and the final
current point. -/
def mcRunSteps (target : Point → Option ℚ) :
    Point → List (Point × ℚ) → Except PyErr (List Point × ℕ × Point)
  | cur, [] => .ok ([], 0, cur)
  | cur, inp :: rest =>
      match mcIter target cur inp with
      | .error e => .error e
      | .ok (next, accepted) =>
          match mcRunSteps target next rest with
          | .error e => .error e
          | .ok (rows, cnt, fin) =>
              .ok (next :: rows, (if accepted then 1 else 0) + cnt, fin)

/-- The mutable state of a `MarkovChain`: the current point and the
history, a list of runs each stored with its accept-count metadata. -/
structure ChainState where
  current : Point
  hist : List (List Point × ℕ)
deriving DecidableEq, Repr

/-- Embeds `MarkovChain.run` (lines 76-118) for a symmetric proposal:
iterate `mcIter`, then append the whole trajectory and the accept
count to the history (line 118).  On an error no append happens. -/
def MarkovChain_run (target : Point → Option ℚ) (st : ChainState)
    (inputs : List (Point × ℚ)) : Except PyErr ChainState :=
  match mcRunSteps target st.current inputs with
  | .error e => .error e
  | .ok (rows, cnt, fin) => .ok ⟨fin, st.hist ++ [(rows, cnt)]⟩

/-- The number of accepted moves along a trajectory: the count of
iterations whose acceptance decision (lines 98-108) came out true. -/
def countAccepts (target : Point → Option ℚ) :
    Point → List (Point × ℚ) → ℕ
  | _, [] => 0
  | cur, inp :: rest =>
      match mcIter target cur inp with
      | .error _ => 0
      | .ok (next, accepted) =>
          (if accepted then 1 else 0) + countAccepts target next rest

/-! ### AdaptiveMarkovChain: adaptation parameters and scale factor
(`markov_chain.py`, lines 142-160, 243-257, 292-301)

The parameter record is generic over the scalar field so that the
scale-factor arithmetic can be run both over `ℚ` (exact evaluation)
and over `ℝ` (inside `adapt`, which needs a real power). -/

/-- The adaptation parameters of an `AdaptiveMarkovChain` (the instance
attributes set in `__init__`, lines 144-155). -/
structure AdaptParams (α : Type) where
  covar_scale_multiplier : α
  covar_scale_factor : α
  covar_scale_factor_max : α
  covar_scale_factor_min : α
  force_acceptance_max : α
  force_acceptance_min : α
  damping : α
deriving DecidableEq, Repr

/-- The constructor defaults of lines 146-155: multiplier 1.5, scale
factor 1, bounds 100 and 0.0001, forced acceptance window
[0.15, 0.35], damping 0.5. -/
def defaultAdaptParams {α : Type} [LinearOrderedField α] : AdaptParams α :=
  { covar_scale_multiplier := 3 / 2
    covar_scale_factor := 1
    covar_scale_factor_max := 100
    covar_scale_factor_min := 1 / 10000
    force_acceptance_max := 35 / 100
    force_acceptance_min := 15 / 100
    damping := 1 / 2 }

/-- Embeds `AdaptiveMarkovChain._update_scale_factor` (lines 292-301):
multiply the scale factor by the multiplier if the acceptance rate is
above `force_acceptance_max` and the factor is still below its upper
bound; divide if the rate is below `force_acceptance_min` and the
factor is still above its lower bound; otherwise leave it alone. -/
def update_scale_factor {α : Type} [LinearOrderedField α]
    (p : AdaptParams α) (accept_rate : α) : α :=
  if p.force_acceptance_max < accept_rate ∧
      p.covar_scale_factor < p.covar_scale_factor_max then
    p.covar_scale_factor * p.covar_scale_multiplier
  else if accept_rate < p.force_acceptance_min ∧
      p.covar_scale_factor_min < p.covar_scale_factor then
    p.covar_scale_factor / p.covar_scale_multiplier
  else
    p.covar_scale_factor

/-- The scale factor after a sequence of `_update_scale_factor` calls,
one per observed acceptance rate (the other parameters never change
inside `adapt`). -/
def update_scale_factor_seq {α : Type} [LinearOrderedField α]
    (p : AdaptParams α) : List α → α
  | [] => p.covar_scale_factor
  | rate :: rest =>
      update_scale_factor_seq
        { p with covar_scale_factor := update_scale_factor p rate } rest

/-! ### `set_adapt_params` (lines 162-257)

Python keyword arguments are an association list from keyword name to
float value (every tunable here is a float).  `kwargs.pop(key, dflt)`
returns the stored value (or the default) and removes the key. -/

/-- Python `dict.pop(key, default)` on a keyword dictionary. -/
def kwpop (kw : List (String × ℚ)) (key : String) (dflt : ℚ) :
    ℚ × List (String × ℚ) :=
  match kw.lookup key with
  | some v => (v, kw.filter (fun e => e.1 ≠ key))
  | none => (dflt, kw)

/-- The seven keyword names recognized by `set_adapt_params`. -/
def adaptKeys : List String :=
  ["covar_scale_multiplier", "covar_scale_factor", "covar_scale_factor_max",
   "covar_scale_factor_min", "force_acceptance_max", "force_acceptance_min",
   "damping"]

/-- Embeds `AdaptiveMarkovChain.set_adapt_params` (lines 243-257).
Python semantics: a raised exception still leaves behind every
attribute assignment already executed, so the embedding returns the
post-call parameter record together with the exception, if any.  The
positional-argument check fires before any assignment (line 243); the
unrecognized-keyword check fires after all seven assignments
(line 257). -/
def set_adapt_params (p : AdaptParams ℚ) (args : List ℚ)
    (kwargs : List (String × ℚ)) : AdaptParams ℚ × Option PyErr :=
  if args ≠ [] then
    (p, some (.typeError "keyword args only"))
  else
    let s1 := kwpop kwargs "covar_scale_multiplier" p.covar_scale_multiplier
    let s2 := kwpop s1.2 "covar_scale_factor" p.covar_scale_factor
    let s3 := kwpop s2.2 "covar_scale_factor_max" p.covar_scale_factor_max
    let s4 := kwpop s3.2 "covar_scale_factor_min" p.covar_scale_factor_min
    let s5 := kwpop s4.2 "force_acceptance_max" p.force_acceptance_max
    let s6 := kwpop s5.2 "force_acceptance_min" p.force_acceptance_min
    let s7 := kwpop s6.2 "damping" p.damping
    let p' : AdaptParams ℚ :=
      { covar_scale_multiplier := s1.1
        covar_scale_factor := s2.1
        covar_scale_factor_max := s3.1
        covar_scale_factor_min := s4.1
        force_acceptance_max := s5.1
        force_acceptance_min := s6.1
        damping := s7.1 }
    if s7.2 ≠ [] then (p', some (.typeError "unexpected keyword"))
    else (p', none)

/-! ### `AdaptiveMarkovChain.adapt` (lines 260-290)

`adapt` computes `1./adapt_count**damping` with a float power whose
exponent is fractional (damping defaults to 0.5), so this part of the
embedding lives over the real numbers, with `x ^ y` the real power. -/

/-- Column mean of a run of `d`-dimensional points. -/
noncomputable def runMean {d : ℕ} (run : List (Fin d → ℝ)) (a : Fin d) : ℝ :=
  (run.map (fun x => x a)).sum / run.length

/-- Embeds `numpy.cov(last_run, rowvar=0)` (line 283): the unbiased
sample covariance of the run, columns as variables, denominator
`n - 1`. -/
noncomputable def sampleCov {d : ℕ} (run : List (Fin d → ℝ)) :
    Matrix (Fin d) (Fin d) ℝ :=
  Matrix.of fun a b =>
    (run.map (fun x => (x a - runMean run a) * (x b - runMean run b))).sum /
      ((run.length : ℝ) - 1)

/-- The state of an `AdaptiveMarkovChain` relevant to `adapt`: the
adapt counter, the adaptation parameters, the unscaled covariance
estimate, the proposal's covariance (written by `update_sigma`) and
the history of runs, each run a list of points plus its accept
count. -/
structure AdaptiveChainState (d : ℕ) where
  adapt_count : ℕ
  params : AdaptParams ℝ
  unscaled_sigma : Matrix (Fin d) (Fin d) ℝ
  proposal_sigma : Matrix (Fin d) (Fin d) ℝ
  histRuns : List (List (Fin d → ℝ) × ℕ)

/-- Embeds `AdaptiveMarkovChain.adapt` (lines 260-290): increment the
counter, damp with `a = 1/adapt_count**damping`, blend the previous
unscaled sigma with the sample covariance of the most recent run only
(`hist.get_run_points()`), update the scale factor from the most
recent run's acceptance rate, and push the rescaled sigma into the
proposal.  `get_run_points` raises when no run exists yet. -/
noncomputable def adapt {d : ℕ} (st : AdaptiveChainState d) :
    Except PyErr (AdaptiveChainState d) :=
  match st.histRuns.getLast? with
  | none => .error (.valueError "no run in history")
  | some (last_run, acceptCount) =>
      let newCount := st.adapt_count + 1
      let a : ℝ := 1 / (newCount : ℝ) ^ st.params.damping
      let covar_estimator := sampleCov last_run
      let newSigma := (1 - a) • st.unscaled_sigma + a • covar_estimator
      let accept_rate : ℝ := (acceptCount : ℝ) / (last_run.length : ℝ)
      let newFactor := update_scale_factor st.params accept_rate
      .ok { st with
            adapt_count := newCount
            params := { st.params with covar_scale_factor := newFactor }
            unscaled_sigma := newSigma
            proposal_sigma := newFactor • newSigma }

/-! ### PMC mixture update `gaussian_pmc`

The implementation file `pypmc/mix_adapt/pmc.py` is not part of this
source tree; only its unit tests (`pmc_test.py`) are.  The update is
therefore modelled from the specification.  Mixture components carry
their mean, covariance and an abstract density function (the external
density collaborator); sample points are `d`-vectors over `ℚ`. -/

/-- A `d`-dimensional sample point for the PMC update. -/
abbrev Vec (d : ℕ) := Fin d → ℚ

/-- A mixture component: mean, covariance, and its density function
(the external evaluation collaborator, kept abstract). -/
structure PmcComponent (d : ℕ) where
  mu : Vec d
  sigma : Matrix (Fin d) (Fin d) ℚ
  density : Vec d → ℚ

/-- A finite mixture: components plus a component weight vector. -/
structure MixtureDensity (d : ℕ) where
  components : List (PmcComponent d)
  weights : List ℚ

/-- Modelled from the spec: the Rao-Blackwellized responsibility of
each component for a point — component weight times component density,
normalized by the mixture total (spec section 4.6, E-step). -/
def responsibilities {d : ℕ} (prop : MixtureDensity d) (x : Vec d) :
    List ℚ :=
  let rhos := List.zipWith (fun w c => w * c.density x) prop.weights prop.components
  rhos.map (fun r => r / rhos.sum)

/-- Modelled from the spec: `gaussian_pmc` (spec section 4.6), whose
implementation file `pmc.py` is missing from this tree.  Validation:
`rb=False` and `mincount>0` each require `latent`.  Per component `k`:
responsibility (soft posterior if `rb`, hard label indicator
otherwise), effective count `N_k`, weighted mean and covariance;
components whose hard-label count is below `mincount` are pruned —
output weight exactly `0`, mean and covariance left at the input
values — and the surviving weights are normalized over the survivors
only.  `gauss` is the abstract Gaussian-density constructor used to
equip newly built components with their density collaborator. -/
def gaussian_pmc {d : ℕ} (samples : List (Vec d)) (prop : MixtureDensity d)
    (weights : Option (List ℚ)) (latent : Option (List ℕ)) (rb : Bool)
    (mincount : ℕ) (gauss : Vec d → Matrix (Fin d) (Fin d) ℚ → Vec d → ℚ) :
    Except PyErr (MixtureDensity d) :=
  if rb = false ∧ latent = none then
    .error (.valueError "rb must be True if latent is not provided")
  else if 0 < mincount ∧ latent = none then
    .error (.valueError "mincount must be 0 if latent is not provided")
  else
    let w := weights.getD (List.replicate samples.length 1)
    let lbl := latent.getD (List.replicate samples.length 0)
    let rows := w.zip (samples.zip lbl)
    let resp : ℕ → Vec d → ℕ → ℚ := fun k x l =>
      if rb then (responsibilities prop x).getD k 0
      else if l = k then 1 else 0
    let nk : ℕ → ℚ := fun k => (rows.map (fun e => e.1 * resp k e.2.1 e.2.2)).sum
    let newMu : ℕ → Vec d := fun k =>
      (nk k)⁻¹ • (rows.map (fun e => (e.1 * resp k e.2.1 e.2.2) • e.2.1)).sum
    let newSigma : ℕ → Matrix (Fin d) (Fin d) ℚ := fun k =>
      (nk k)⁻¹ •
        (rows.map (fun e => (e.1 * resp k e.2.1 e.2.2) •
          Matrix.of (fun a b => (e.2.1 a - newMu k a) * (e.2.1 b - newMu k b)))).sum
    let alive : ℕ → Bool := fun k =>
      match latent with
      | none => true
      | some l => decide (mincount ≤ l.count k)
    let K := prop.components.length
    let denom := (((List.range K).filter (fun k => alive k)).map nk).sum
    .ok
      { components := prop.components.enum.map (fun e =>
          if alive e.1 then
            { mu := newMu e.1, sigma := newSigma e.1,
              density := gauss (newMu e.1) (newSigma e.1) }
          else e.2)
        weights := (List.range K).map (fun k => if alive k then nk k / denom else 0) }

/-- Modelled from the spec: a call to `gaussian_pmc` with the input
proposal object made explicit as state — the pair holds the returned
value and the input mixture as the call leaves it.  The spec (section
4.6) requires the update to be stateless in its inputs ("must not
mutate the input"), and the modelled body only reads the proposal, so
the post-call object is the input itself. -/
def gaussian_pmc_call {d : ℕ} (samples : List (Vec d))
    (prop : MixtureDensity d) (weights : Option (List ℚ))
    (latent : Option (List ℕ)) (rb : Bool) (mincount : ℕ)
    (gauss : Vec d → Matrix (Fin d) (Fin d) ℚ → Vec d → ℚ) :
    Except PyErr (MixtureDensity d) × MixtureDensity d :=
  (gaussian_pmc samples prop weights latent rb mincount gauss, prop)

/-! ### Deterministic importance sampler

The implementation file `pypmc/pmc/importance_sampling.py` is not part
of this source tree; only its unit tests are.  The sampler is modelled
from the specification (sections 4.5 and 7): its history stores runs
of `[weight | point]` rows, and the sampler keeps an internal count of
the samples it has processed and cached.  `run` first asserts that the
history agrees with that bookkeeping and fails with the documented
inconsistent-state message otherwise; then it draws the new points,
appends them, and rewrites every stored weight against the current
proposal.  The per-point weight function under the current proposal
(`exp(log_target - log_proposal)`, or `0` on indicator failure) is the
abstract collaborator `weightOf`. -/

/-- Modelled from the spec: the mutable state of a `DeterministicIS` —
the history runs of weighted points, and the sampler's internal count
of processed samples. -/
structure DetISState where
  histRuns : List (List (ℚ × Point))
  numCached : ℕ
deriving Repr

/-- Total number of rows currently stored in the history. -/
def DetISState.totalRows (st : DetISState) : ℕ :=
  (st.histRuns.map List.length).sum

/-- An external `hist.clear()`: the history is emptied behind the
sampler's back, leaving its internal bookkeeping untouched. -/
def hist_clear (st : DetISState) : DetISState :=
  { st with histRuns := [] }

/-- Modelled from the spec: the sampler's own `clear()` — drops all
runs and resets the internal counters. -/
def DetIS_clear (_ : DetISState) : DetISState :=
  ⟨[], 0⟩

/-- Modelled from the spec: `DeterministicIS.run` (spec sections 4.5
and 7).  Asserts consistency of history and internal bookkeeping,
failing with the documented message directing the caller to
`self.clear`; on success appends the new run and recomputes every
stored weight — old point coordinates untouched — against the current
proposal via `weightOf`. -/
def DetIS_run (weightOf : Point → ℚ) (st : DetISState)
    (draws : List Point) : Except PyErr DetISState :=
  if st.totalRows ≠ st.numCached then
    .error (.assertionError "Inconsistent state encountered - try self.clear")
  else
    let newRun := draws.map (fun x => (weightOf x, x))
    let reweighted := st.histRuns.map (List.map (fun e => (weightOf e.2, e.2)))
    .ok ⟨reweighted ++ [newRun], st.numCached + draws.length⟩

/-- A concrete one-dimensional adaptive-chain state used to evaluate
`adapt`: fresh controller (count 0, default parameters, zero sigma)
with a single stored run of the points 0 and 2, one accepted move. -/
noncomputable def c5State : AdaptiveChainState 1 :=
  { adapt_count := 0
    params := defaultAdaptParams
    unscaled_sigma := 0
    proposal_sigma := 0
    histRuns := [([fun _ => 0, fun _ => 2], 1)] }

/-- A concrete one-component, one-dimensional mixture used to
evaluate the PMC update. -/
def c7Prop : MixtureDensity 1 :=
  { components := [{ mu := fun _ => 0, sigma := 0, density := fun _ => 0 }]
    weights := [1] }

/-! ## Theorems -/

/-- The run loop returns one stored row per iteration, and its accept
count is the number of accepted moves, bounded by the iteration
count. -/
theorem mcRunSteps_length_count (target : Point → Option ℚ)
    (inputs : List (Point × ℚ)) :
    ∀ (cur : Point) (rows : List Point) (cnt : ℕ) (fin : Point),
      mcRunSteps target cur inputs = .ok (rows, cnt, fin) →
      rows.length = inputs.length ∧ cnt = countAccepts target cur inputs ∧
        cnt ≤ inputs.length := by
  induction inputs with
  | nil =>
      intro cur rows cnt fin h
      simp only [mcRunSteps, Except.ok.injEq, Prod.mk.injEq] at h
      obtain ⟨h1, h2, h3⟩ := h
      subst h1; subst h2
      simp [countAccepts]
  | cons inp rest ih =>
      intro cur rows cnt fin h
      simp only [mcRunSteps] at h
      split at h
      · exact Except.noConfusion h
      · rename_i nxt accepted hit
        split at h
        · exact Except.noConfusion h
        · rename_i rows2 cnt2 fin2 hrec
          simp only [Except.ok.injEq, Prod.mk.injEq] at h
          obtain ⟨h1, h2, h3⟩ := h
          subst h1; subst h2
          obtain ⟨ih1, ih2, ih3⟩ := ih nxt rows2 cnt2 fin2 hrec
          refine ⟨by simp [ih1], ?_, ?_⟩
          · simp [countAccepts, hit, ih2]
          · cases accepted <;> simp <;> omega

/-- Splitting the run loop at an initial segment: if the loop
succeeds on the initial inputs, the loop on the concatenation
continues from its final point. -/
theorem mcRunSteps_append (target : Point → Option ℚ)
    (l1 : List (Point × ℚ)) :
    ∀ (cur : Point) (rows : List Point) (cnt : ℕ) (fin : Point)
      (l2 : List (Point × ℚ)),
      mcRunSteps target cur l1 = .ok (rows, cnt, fin) →
      mcRunSteps target cur (l1 ++ l2) =
        match mcRunSteps target fin l2 with
        | .error e => .error e
        | .ok (rows2, cnt2, fin2) => .ok (rows ++ rows2, cnt + cnt2, fin2) := by
  induction l1 with
  | nil =>
      intro cur rows cnt fin l2 h
      simp only [mcRunSteps, Except.ok.injEq, Prod.mk.injEq] at h
      obtain ⟨h1, h2, h3⟩ := h
      subst h1; subst h2; subst h3
      simp only [List.nil_append, Nat.zero_add]
      cases mcRunSteps target cur l2 with
      | error e => rfl
      | ok t => obtain ⟨a, b, c⟩ := t; simp
  | cons inp rest ih =>
      intro cur rows cnt fin l2 h
      simp only [mcRunSteps] at h
      simp only [List.cons_append, mcRunSteps]
      split at h
      · exact Except.noConfusion h
      · rename_i nxt accepted hit
        split at h
        · exact Except.noConfusion h
        · rename_i rows2 cnt2 fin2 hrec
          simp only [Except.ok.injEq, Prod.mk.injEq] at h
          obtain ⟨h1, h2, h3⟩ := h
          subst h1; subst h2; subst h3
          rw [List.append_eq, ih nxt rows2 cnt2 fin2 l2 hrec]
          cases mcRunSteps target fin2 l2 with
          | error e => rfl
          | ok t2 => obtain ⟨a, b, c⟩ := t2; simp; omega

/-- C1: evaluation of the code at the failing input.  Target
log-density `-1` everywhere, indicator true exactly on the current
point `[0]`; the proposed point `[1]` fails the indicator, so the
merged target (line 72) returns the float `0.` for it — as a
log-probability.  The acceptance ratio becomes
`log_rho = 0 - (-1) = 1 ≥ 0` and the out-of-support point is accepted
with certainty, where the claim (and the class docstring, lines
32-38) requires it to be rejected with probability ratio exactly 0. -/
theorem C1_out_of_support_point_accepted :
    mcIter
      (merge_target_with_indicator (fun _ => some (-1))
        (some (fun x => decide (x = ([0] : Point)))))
      [0] ([1], -1) = .ok ([1], true) := by
  norm_num [mcIter, get_log_rho_metropolis, merge_target_with_indicator]

/-- C3: the asymmetric acceptance path cannot produce a log-ratio at
all.  As written (line 126), `_get_log_rho_metropolis_hasting` passes
two positional arguments to `_get_log_rho_metropolis`, which accepts
exactly one, so every call raises `TypeError` instead of returning
the Metropolis log-ratio plus the Hastings correction
`evaluate(current, x') - evaluate(x', current)`. -/
theorem C3_asymmetric_ratio_raises_type_error (target : Point → Option ℚ)
    (evaluate : Point → Point → ℚ) (current lastPoint proposed : Point) :
    get_log_rho_metropolis_hasting target evaluate current lastPoint proposed =
        .error (.typeError "get_log_rho_metropolis takes 2 positional arguments") ∧
      get_log_rho_metropolis_hasting target evaluate current lastPoint proposed ≠
        .ok (log_rho_metropolis_hasting_spec target evaluate current proposed) := by
  exact ⟨rfl, by simp [get_log_rho_metropolis_hasting, get_log_rho_metropolis_call]⟩

/-- C4: a completed `run` appends exactly one run to the history,
whose row count equals the number of iterations and whose
accept-count metadata equals the number of accepted moves, an integer
between 0 and the iteration count. -/
theorem C4_run_appends_full_trajectory (target : Point → Option ℚ)
    (st : ChainState) (inputs : List (Point × ℚ)) (st2 : ChainState)
    (h : MarkovChain_run target st inputs = .ok st2) :
    ∃ rows cnt, st2.hist = st.hist ++ [(rows, cnt)] ∧
      rows.length = inputs.length ∧
      cnt = countAccepts target st.current inputs ∧
      cnt ≤ inputs.length := by
  unfold MarkovChain_run at h
  split at h
  · exact Except.noConfusion h
  · rename_i rows cnt fin hrun
    simp only [Except.ok.injEq] at h
    subst h
    obtain ⟨h1, h2, h3⟩ := mcRunSteps_length_count target inputs st.current rows cnt fin hrun
    exact ⟨rows, cnt, rfl, h1, h2, h3⟩

/-- C4 witness: a concrete two-iteration run (first move rejected,
second accepted) appends one run of two rows with accept count 1. -/
theorem C4_run_appends_full_trajectory_witness :
    ∃ rows cnt,
      (ChainState.mk [2] [([[0], [2]], 1)]).hist =
        (ChainState.mk [0] []).hist ++ [(rows, cnt)] ∧
      rows.length = ([([1], -1/2), ([2], -3)] : List (Point × ℚ)).length ∧
      cnt = countAccepts (fun x => some (-(x.headD 0))) [0]
        [([1], -1/2), ([2], -3)] ∧
      cnt ≤ ([([1], -1/2), ([2], -3)] : List (Point × ℚ)).length :=
  C4_run_appends_full_trajectory (fun x => some (-(x.headD 0)))
    ⟨[0], []⟩ [([1], -1/2), ([2], -3)] ⟨[2], [([[0], [2]], 1)]⟩
    (by norm_num [MarkovChain_run, mcRunSteps, mcIter, get_log_rho_metropolis])

/-- C6: if the log-ratio of some iteration evaluates to NaN, the
whole `run` call fails right there with `ValueError` — whatever
iterations would have followed, and with nothing appended to the
history. -/
theorem C6_nan_log_rho_fatal (target : Point → Option ℚ) (st : ChainState)
    (pre : List (Point × ℚ)) (x : Point) (u : ℚ) (rest : List (Point × ℚ))
    (rows : List Point) (cnt : ℕ) (fin : Point)
    (h1 : mcRunSteps target st.current pre = .ok (rows, cnt, fin))
    (h2 : get_log_rho_metropolis target fin x = none) :
    MarkovChain_run target st (pre ++ (x, u) :: rest) =
      .error (.valueError "encountered NaN") := by
  unfold MarkovChain_run
  rw [mcRunSteps_append target pre st.current rows cnt fin ((x, u) :: rest) h1]
  simp [mcRunSteps, mcIter, h2]

/-- C6 witness: the target returns NaN at `[2]`; the run accepts
`[1]` on its first iteration and then fails on the NaN log-ratio of
the second. -/
theorem C6_nan_log_rho_fatal_witness :
    MarkovChain_run (fun p => if p = [2] then none else some 0)
      ⟨[0], []⟩ ([([1], -1)] ++ ([2], -1) :: []) =
      .error (.valueError "encountered NaN") :=
  C6_nan_log_rho_fatal (fun p => if p = [2] then none else some 0)
    ⟨[0], []⟩ [([1], -1)] [2] (-1) [] [[1]] 1 [1]
    (by norm_num [mcRunSteps, mcIter, get_log_rho_metropolis])
    (by norm_num [get_log_rho_metropolis])

/-- C2 counterexample: with the default multiplier 1.5 and bounds
[0.0001, 100], a scale factor of 99 — strictly inside the bounds —
and an acceptance rate of 0.9 yield a new scale factor of 148.5,
outside the claimed interval: the code checks the bound before
multiplying, so one update can overshoot the bound by up to the
multiplier. -/
theorem C2_hard_clamp_counterexample :
    (1 / 10000 : ℚ) ≤ 99 ∧ (99 : ℚ) ≤ 100 ∧
      update_scale_factor
        ({ covar_scale_multiplier := 3 / 2
           covar_scale_factor := 99
           covar_scale_factor_max := 100
           covar_scale_factor_min := 1 / 10000
           force_acceptance_max := 35 / 100
           force_acceptance_min := 15 / 100
           damping := 1 / 2 } : AdaptParams ℚ) (9 / 10) = 297 / 2 ∧
      ¬ ((297 / 2 : ℚ) ≤ 100) := by
  refine ⟨by norm_num, by norm_num, ?_, by norm_num⟩
  norm_num [update_scale_factor]

/-- One `_update_scale_factor` call keeps the scale factor inside the
extended interval `[min/multiplier, max*multiplier]`. -/
theorem update_scale_factor_extended_mem (p : AdaptParams ℚ) (rate : ℚ)
    (hmult : 1 ≤ p.covar_scale_multiplier)
    (hmin : 0 ≤ p.covar_scale_factor_min)
    (hlo : p.covar_scale_factor_min / p.covar_scale_multiplier ≤ p.covar_scale_factor)
    (hhi : p.covar_scale_factor ≤ p.covar_scale_factor_max * p.covar_scale_multiplier) :
    p.covar_scale_factor_min / p.covar_scale_multiplier ≤
        update_scale_factor p rate ∧
      update_scale_factor p rate ≤
        p.covar_scale_factor_max * p.covar_scale_multiplier := by
  have hm0 : (0 : ℚ) < p.covar_scale_multiplier := lt_of_lt_of_le one_pos hmult
  have hcsf0 : 0 ≤ p.covar_scale_factor :=
    le_trans (div_nonneg hmin hm0.le) hlo
  unfold update_scale_factor
  split_ifs with h1 h2
  · refine ⟨le_trans hlo (le_mul_of_one_le_right hcsf0 hmult), ?_⟩
    exact mul_le_mul_of_nonneg_right h1.2.le hm0.le
  · refine ⟨(div_le_div_iff_of_pos_right hm0).mpr h2.2.le, ?_⟩
    exact le_trans (div_le_self hcsf0 hmult) hhi
  · exact ⟨hlo, hhi⟩

/-- Any sequence of `_update_scale_factor` calls keeps the scale
factor inside the extended interval `[min/multiplier,
max*multiplier]`, provided it starts there. -/
theorem update_scale_factor_seq_extended_mem (rates : List ℚ) :
    ∀ p : AdaptParams ℚ, 1 ≤ p.covar_scale_multiplier →
      0 ≤ p.covar_scale_factor_min →
      p.covar_scale_factor_min / p.covar_scale_multiplier ≤ p.covar_scale_factor →
      p.covar_scale_factor ≤ p.covar_scale_factor_max * p.covar_scale_multiplier →
      p.covar_scale_factor_min / p.covar_scale_multiplier ≤
          update_scale_factor_seq p rates ∧
        update_scale_factor_seq p rates ≤
          p.covar_scale_factor_max * p.covar_scale_multiplier := by
  induction rates with
  | nil =>
      intro p _ _ h3 h4
      exact ⟨h3, h4⟩
  | cons rate rest ih =>
      intro p h1 h2 h3 h4
      have step := update_scale_factor_extended_mem p rate h1 h2 h3 h4
      simpa [update_scale_factor_seq] using
        ih { p with covar_scale_factor := update_scale_factor p rate }
          h1 h2 step.1 step.2

/-- C2 (amended): along every sequence of adaptation updates started
with a scale factor inside `[min, max]` (multiplier at least 1, lower
bound nonnegative), the scale factor never leaves the extended
interval `[min/multiplier, max*multiplier]`: the bounds gate further
scaling rather than clamping it, so a single update may overshoot a
bound by at most a factor of the multiplier and the factor never runs
away beyond that. -/
theorem C2_scale_factor_extended_interval (p : AdaptParams ℚ)
    (rates : List ℚ)
    (hmult : 1 ≤ p.covar_scale_multiplier)
    (hmin : 0 ≤ p.covar_scale_factor_min)
    (hlo : p.covar_scale_factor_min ≤ p.covar_scale_factor)
    (hhi : p.covar_scale_factor ≤ p.covar_scale_factor_max) :
    p.covar_scale_factor_min / p.covar_scale_multiplier ≤
        update_scale_factor_seq p rates ∧
      update_scale_factor_seq p rates ≤
        p.covar_scale_factor_max * p.covar_scale_multiplier := by
  have hmax0 : 0 ≤ p.covar_scale_factor_max :=
    le_trans hmin (le_trans hlo hhi)
  exact update_scale_factor_seq_extended_mem rates p hmult hmin
    (le_trans (div_le_self hmin hmult) hlo)
    (le_trans hhi (le_mul_of_one_le_right hmax0 hmult))

/-- C2 witness: the default parameters run through two updates (one
forced multiplication, one forced division) stay inside the extended
interval. -/
theorem C2_scale_factor_extended_interval_witness :
    (defaultAdaptParams : AdaptParams ℚ).covar_scale_factor_min /
        (defaultAdaptParams : AdaptParams ℚ).covar_scale_multiplier ≤
      update_scale_factor_seq (defaultAdaptParams : AdaptParams ℚ)
        [9 / 10, 1 / 100] ∧
    update_scale_factor_seq (defaultAdaptParams : AdaptParams ℚ)
        [9 / 10, 1 / 100] ≤
      (defaultAdaptParams : AdaptParams ℚ).covar_scale_factor_max *
        (defaultAdaptParams : AdaptParams ℚ).covar_scale_multiplier :=
  C2_scale_factor_extended_interval defaultAdaptParams [9 / 10, 1 / 100]
    (by norm_num [defaultAdaptParams]) (by norm_num [defaultAdaptParams])
    (by norm_num [defaultAdaptParams]) (by norm_num [defaultAdaptParams])

/-- C5: after the k-th `adapt` call (k the incremented counter), the
unscaled sigma equals `(1-a) * previous + a * cov(last run points)`
with `a = 1/k**damping`, where the covariance estimate is computed
from the most recent run only; states that differ in any earlier runs
but share the last run produce the same updated sigma, so older runs
enter only through the damped recursion. -/
theorem C5_adapt_damped_update {d : ℕ} (st : AdaptiveChainState d)
    (lastRun : List (Fin d → ℝ)) (acc : ℕ)
    (h : st.histRuns.getLast? = some (lastRun, acc)) :
    ∃ st2, adapt st = .ok st2 ∧
      st2.unscaled_sigma =
        (1 - 1 / ((st.adapt_count + 1 : ℕ) : ℝ) ^ st.params.damping) •
            st.unscaled_sigma +
          (1 / ((st.adapt_count + 1 : ℕ) : ℝ) ^ st.params.damping) •
            sampleCov lastRun ∧
      ∀ pre : List (List (Fin d → ℝ) × ℕ),
        ∃ st3,
          adapt { st with histRuns := pre ++ [(lastRun, acc)] } = .ok st3 ∧
            st3.unscaled_sigma = st2.unscaled_sigma := by
  unfold adapt
  rw [h]
  refine ⟨_, rfl, rfl, ?_⟩
  intro pre
  rw [show ({ st with histRuns := pre ++ [(lastRun, acc)] } :
        AdaptiveChainState d).histRuns.getLast? = some (lastRun, acc) from
      List.getLast?_concat pre]
  exact ⟨_, rfl, rfl⟩

/-- C5 witness: the concrete fresh controller state; with
`adapt_count` going to 1 the damping factor is `1/1**damping`. -/
theorem C5_adapt_damped_update_witness :
    c5State.histRuns.getLast? = some ([fun _ => 0, fun _ => 2], 1) ∧
    ∃ st2, adapt c5State = .ok st2 ∧
      st2.unscaled_sigma =
        (1 - 1 / ((c5State.adapt_count + 1 : ℕ) : ℝ) ^ c5State.params.damping) •
            c5State.unscaled_sigma +
          (1 / ((c5State.adapt_count + 1 : ℕ) : ℝ) ^ c5State.params.damping) •
            sampleCov [fun _ => 0, fun _ => 2] ∧
      ∀ pre,
        ∃ st3,
          adapt { c5State with
                  histRuns := pre ++ [([fun _ => 0, fun _ => 2], 1)] } = .ok st3 ∧
            st3.unscaled_sigma = st2.unscaled_sigma :=
  ⟨rfl, C5_adapt_damped_update c5State [fun _ => 0, fun _ => 2] 1 rfl⟩

/-- Filtering away another key leaves a lookup unchanged. -/
theorem lookup_filter_ne {β : Type} (l : List (String × β)) (k k2 : String)
    (hne : k ≠ k2) :
    (l.filter (fun e => e.1 ≠ k2)).lookup k = l.lookup k := by
  induction l with
  | nil => rfl
  | cons e rest ih =>
      obtain ⟨a, b⟩ := e
      simp only [ne_eq, decide_not] at ih ⊢
      by_cases ha : a = k2
      · subst ha
        have hk : (k == a) = false := by simp [hne]
        simp [List.filter_cons, List.lookup, hk, ih]
      · have hpa : (!decide ((a, b).1 = k2)) = true := by simp [ha]
        simp only [List.filter_cons, hpa, if_true]
        by_cases hk : (k == a) = true
        · simp [List.lookup, hk]
        · simp only [Bool.not_eq_true] at hk
          simp [List.lookup, hk, ih]

/-- The value returned by `kwargs.pop(key, dflt)` is the stored value
if present, the default otherwise. -/
theorem kwpop_value (kw : List (String × ℚ)) (key : String) (dflt : ℚ) :
    (kwpop kw key dflt).1 = (kw.lookup key).getD dflt := by
  unfold kwpop
  cases hl : kw.lookup key <;> simp [hl]

/-- `pop`-ing one key does not change the lookup of a different key. -/
theorem kwpop_lookup_ne (kw : List (String × ℚ)) (key k2 : String)
    (dflt : ℚ) (hne : k2 ≠ key) :
    ((kwpop kw key dflt).2).lookup k2 = kw.lookup k2 := by
  unfold kwpop
  cases hl : kw.lookup key with
  | none => rfl
  | some v => simpa using lookup_filter_ne kw k2 key hne

/-- An entry under a different key survives a `pop`. -/
theorem kwpop_mem (kw : List (String × ℚ)) (key : String) (dflt : ℚ)
    (e : String × ℚ) (he : e ∈ kw) (hne : e.1 ≠ key) :
    e ∈ (kwpop kw key dflt).2 := by
  unfold kwpop
  cases hl : kw.lookup key with
  | none => exact he
  | some v => simpa [List.mem_filter, hne] using he

/-- C10: a `set_adapt_params` call carrying an unrecognized keyword
raises the unexpected-keyword `TypeError`, but only after every
recognized keyword has been assigned: the post-call parameters are the
old parameters with each of the seven recognized keywords overwritten
by its supplied value, so the failing call is not atomic. -/
theorem C10_set_adapt_params_not_atomic (p : AdaptParams ℚ)
    (kwargs : List (String × ℚ)) (bad : String × ℚ)
    (hmem : bad ∈ kwargs) (hbad : bad.1 ∉ adaptKeys) :
    (set_adapt_params p [] kwargs).2 =
        some (.typeError "unexpected keyword") ∧
      (set_adapt_params p [] kwargs).1 =
        { covar_scale_multiplier :=
            (kwargs.lookup "covar_scale_multiplier").getD p.covar_scale_multiplier
          covar_scale_factor :=
            (kwargs.lookup "covar_scale_factor").getD p.covar_scale_factor
          covar_scale_factor_max :=
            (kwargs.lookup "covar_scale_factor_max").getD p.covar_scale_factor_max
          covar_scale_factor_min :=
            (kwargs.lookup "covar_scale_factor_min").getD p.covar_scale_factor_min
          force_acceptance_max :=
            (kwargs.lookup "force_acceptance_max").getD p.force_acceptance_max
          force_acceptance_min :=
            (kwargs.lookup "force_acceptance_min").getD p.force_acceptance_min
          damping := (kwargs.lookup "damping").getD p.damping } := by
  simp only [adaptKeys, List.mem_cons, List.not_mem_nil, or_false, not_or] at hbad
  obtain ⟨hb1, hb2, hb3, hb4, hb5, hb6, hb7⟩ := hbad
  have m1 := kwpop_mem kwargs "covar_scale_multiplier" p.covar_scale_multiplier bad hmem hb1
  have m2 := kwpop_mem _ "covar_scale_factor" p.covar_scale_factor bad m1 hb2
  have m3 := kwpop_mem _ "covar_scale_factor_max" p.covar_scale_factor_max bad m2 hb3
  have m4 := kwpop_mem _ "covar_scale_factor_min" p.covar_scale_factor_min bad m3 hb4
  have m5 := kwpop_mem _ "force_acceptance_max" p.force_acceptance_max bad m4 hb5
  have m6 := kwpop_mem _ "force_acceptance_min" p.force_acceptance_min bad m5 hb6
  have m7 := kwpop_mem _ "damping" p.damping bad m6 hb7
  have hne7 := List.ne_nil_of_mem m7
  simp only [set_adapt_params, ne_eq, not_true_eq_false, if_false, ite_not]
  rw [if_neg (by simpa using hne7)]
  refine ⟨rfl, ?_⟩
  simp only [AdaptParams.mk.injEq]
  refine ⟨?_, ?_, ?_, ?_, ?_, ?_, ?_⟩ <;>
    simp [kwpop_value, kwpop_lookup_ne]

/-- C10 witness: a call mixing the recognized keyword `damping` with
the unrecognized keyword `bogus` raises, yet `damping` is assigned. -/
theorem C10_set_adapt_params_not_atomic_witness :
    (set_adapt_params defaultAdaptParams [] [("damping", 2), ("bogus", 1)]).2 =
        some (.typeError "unexpected keyword") ∧
      (set_adapt_params defaultAdaptParams [] [("damping", 2), ("bogus", 1)]).1 =
        { covar_scale_multiplier :=
            (([("damping", 2), ("bogus", 1)] : List (String × ℚ)).lookup
                "covar_scale_multiplier").getD
              (defaultAdaptParams : AdaptParams ℚ).covar_scale_multiplier
          covar_scale_factor :=
            (([("damping", 2), ("bogus", 1)] : List (String × ℚ)).lookup
                "covar_scale_factor").getD
              (defaultAdaptParams : AdaptParams ℚ).covar_scale_factor
          covar_scale_factor_max :=
            (([("damping", 2), ("bogus", 1)] : List (String × ℚ)).lookup
                "covar_scale_factor_max").getD
              (defaultAdaptParams : AdaptParams ℚ).covar_scale_factor_max
          covar_scale_factor_min :=
            (([("damping", 2), ("bogus", 1)] : List (String × ℚ)).lookup
                "covar_scale_factor_min").getD
              (defaultAdaptParams : AdaptParams ℚ).covar_scale_factor_min
          force_acceptance_max :=
            (([("damping", 2), ("bogus", 1)] : List (String × ℚ)).lookup
                "force_acceptance_max").getD
              (defaultAdaptParams : AdaptParams ℚ).force_acceptance_max
          force_acceptance_min :=
            (([("damping", 2), ("bogus", 1)] : List (String × ℚ)).lookup
                "force_acceptance_min").getD
              (defaultAdaptParams : AdaptParams ℚ).force_acceptance_min
          damping :=
            (([("damping", 2), ("bogus", 1)] : List (String × ℚ)).lookup
                "damping").getD (defaultAdaptParams : AdaptParams ℚ).damping } :=
  C10_set_adapt_params_not_atomic defaultAdaptParams
    [("damping", 2), ("bogus", 1)] ("bogus", 1) (by simp) (by decide)

/-- C7: a component whose hard-label count falls below `mincount` is
pruned — the call succeeds (latent labels supplied), the component's
output weight is exactly 0 and its mean and covariance are left at
the input values; this holds for any `rb`, so the pruning is governed
by raw hard counts even in Rao-Blackwellized mode. -/
theorem C7_mincount_pruning {d : ℕ} (samples : List (Vec d))
    (prop : MixtureDensity d) (weights : Option (List ℚ)) (l : List ℕ)
    (rb : Bool) (mincount : ℕ)
    (gauss : Vec d → Matrix (Fin d) (Fin d) ℚ → Vec d → ℚ) (k : ℕ)
    (hk : k < prop.components.length)
    (hcount : l.count k < mincount) :
    ∃ out,
      gaussian_pmc samples prop weights (some l) rb mincount gauss = .ok out ∧
        out.weights[k]? = some 0 ∧
        (out.components[k]?).map PmcComponent.mu =
          (prop.components[k]?).map PmcComponent.mu ∧
        (out.components[k]?).map PmcComponent.sigma =
          (prop.components[k]?).map PmcComponent.sigma := by
  have hn : ¬ mincount ≤ l.count k := by omega
  have hc : prop.components[k]? = some prop.components[k] :=
    List.getElem?_eq_getElem hk
  unfold gaussian_pmc
  rw [if_neg (by simp), if_neg (by simp)]
  refine ⟨_, rfl, ?_, ?_, ?_⟩
  · simp [List.getElem?_map, List.getElem?_range, hk, hn]
  · simp [List.getElem?_map, List.getElem?_enum, hc, hn]
  · simp [List.getElem?_map, List.getElem?_enum, hc, hn]

/-- C7 witness: a one-component mixture with an empty latent list and
`mincount = 1`: the sole component has hard count 0 and is pruned. -/
theorem C7_mincount_pruning_witness :
    ∃ out,
      gaussian_pmc [] c7Prop none (some []) true 1 (fun _ _ _ => 0) = .ok out ∧
        out.weights[0]? = some 0 ∧
        (out.components[0]?).map PmcComponent.mu =
          (c7Prop.components[0]?).map PmcComponent.mu ∧
        (out.components[0]?).map PmcComponent.sigma =
          (c7Prop.components[0]?).map PmcComponent.sigma :=
  C7_mincount_pruning [] c7Prop none [] true 1 (fun _ _ _ => 0) 0
    (by simp [c7Prop]) (by simp)

/-- C8: the PMC update leaves the input proposal untouched — the
post-call proposal object equals the snapshot taken before the call,
component weights, means and covariances included. -/
theorem C8_gaussian_pmc_input_unchanged {d : ℕ} (samples : List (Vec d))
    (prop : MixtureDensity d) (weights : Option (List ℚ))
    (latent : Option (List ℕ)) (rb : Bool) (mincount : ℕ)
    (gauss : Vec d → Matrix (Fin d) (Fin d) ℚ → Vec d → ℚ) :
    (gaussian_pmc_call samples prop weights latent rb mincount gauss).2 = prop ∧
      (gaussian_pmc_call samples prop weights latent rb mincount gauss).2.weights =
        prop.weights ∧
      ∀ k : ℕ,
        ((gaussian_pmc_call samples prop weights latent rb mincount
              gauss).2.components[k]?).map PmcComponent.mu =
            (prop.components[k]?).map PmcComponent.mu ∧
          ((gaussian_pmc_call samples prop weights latent rb mincount
              gauss).2.components[k]?).map PmcComponent.sigma =
            (prop.components[k]?).map PmcComponent.sigma :=
  ⟨rfl, rfl, fun _ => ⟨rfl, rfl⟩⟩

/-- C9: once the sampler's bookkeeping records processed samples, an
external clear of the history alone makes the next `run` fail with
the documented inconsistent-state assertion directing the caller to
`self.clear`; calling the sampler's own `clear` first lets `run`
proceed normally, rebuilding the history from zero as the single new
run with consistent bookkeeping. -/
theorem C9_inconsistent_state_clear (weightOf : Point → ℚ)
    (st : DetISState) (draws : List Point) (hpos : 0 < st.numCached) :
    DetIS_run weightOf (hist_clear st) draws =
        .error (.assertionError "Inconsistent state encountered - try self.clear") ∧
      ∃ st2,
        DetIS_run weightOf (DetIS_clear (hist_clear st)) draws = .ok st2 ∧
          st2.histRuns = [draws.map (fun x => (weightOf x, x))] ∧
          st2.totalRows = draws.length ∧
          st2.numCached = draws.length := by
  constructor
  · unfold DetIS_run
    rw [if_pos]
    simp only [hist_clear, DetISState.totalRows, List.map_nil, List.sum_nil]
    omega
  · refine ⟨⟨[draws.map (fun x => (weightOf x, x))], 0 + draws.length⟩, ?_,
      rfl, ?_, Nat.zero_add _⟩
    · unfold DetIS_run
      rw [if_neg (by simp [DetIS_clear, hist_clear, DetISState.totalRows])]
      rfl
    · simp [DetISState.totalRows]

/-- C9 witness: a sampler that has processed one sample; its history
is cleared externally, the next run fails; after the sampler's own
clear, a one-draw run succeeds and rebuilds a one-run history. -/
theorem C9_inconsistent_state_clear_witness :
    DetIS_run (fun _ => 1) (hist_clear ⟨[[(1, [0])]], 1⟩) [[5]] =
        .error (.assertionError "Inconsistent state encountered - try self.clear") ∧
      ∃ st2,
        DetIS_run (fun _ => 1) (DetIS_clear (hist_clear ⟨[[(1, [0])]], 1⟩)) [[5]] =
            .ok st2 ∧
          st2.histRuns = [[((1 : ℚ), ([5] : Point))]] ∧
          st2.totalRows = 1 ∧
          st2.numCached = 1 :=
  C9_inconsistent_state_clear (fun _ => 1) ⟨[[(1, [0])]], 1⟩ [[5]] Nat.one_pos

end Pypmc
